import Mathlib

/-!
Shallow embedding of the armenianOCRUAV drone perception pipeline.

Sources embedded here:
- `src/flight_controller_module/mavlink_handler.py` (telemetry snapshot store)
- `src/flight_controller_module/gps_data.py` (coordinate formatting)
- `src/vision_module/symbol_detector.py` (contour filtering and scoring)
- `src/vision_module/ocr_processor.py` (text cleaning, symbol-id mapping, OCR wrapper)
- `src/data_module/excel_logger.py` (buffered detection log)
- `src/main_controller.py` (the main loop's GPS readiness check)

Python floats are modelled as exact rationals (`ℚ`), machine integers as `ℤ`/`ℕ`.
Fallible external calls are modelled with `Except`/`Option`; `try`/`except`
blocks become explicit case analysis on those values.
-/

namespace ArmenianOCRUAV

/-- Python's built-in `round` on a number: round half to even (banker's rounding),
returning an integer.  Used by `gps_data.format_for_competition` and by
`round(x, n)` in `excel_logger.log_detection`. -/
def roundHalfEven (q : ℚ) : ℤ :=
  if q - ⌊q⌋ < 1/2 then ⌊q⌋
  else if 1/2 < q - ⌊q⌋ then ⌊q⌋ + 1
  else if Even ⌊q⌋ then ⌊q⌋ else ⌊q⌋ + 1

/-- Python's `round(q, n)` for `n` decimal digits, as an exact rational. -/
def pyRoundTo (n : ℕ) (q : ℚ) : ℚ := (roundHalfEven (q * 10 ^ n) : ℚ) / 10 ^ n

/-! ## Telemetry snapshot store (`mavlink_handler.py`)

`MAVLinkHandler.last_gps_data` is either `None` or a dict; we model it as
`Option GpsData`.  The `satellites_visible` key is absent until a
`GPS_RAW_INT` message adds it, hence `Option ℤ`. -/

/-- The `last_gps_data` dict built by `MAVLinkHandler.process_message`. -/
structure GpsData where
  lat : ℚ
  lon : ℚ
  alt : ℚ
  relative_alt : ℚ
  vx : ℚ
  vy : ℚ
  vz : ℚ
  hdg : ℚ
  timestamp : ℚ
  fix_quality : ℤ
  satellites_visible : Option ℤ
deriving DecidableEq, Repr

/-- Telemetry messages distinguished by `MAVLinkHandler.process_message`.
`gpsRawInt`'s `fix_type` is `none` when the message lacks the attribute
(the `hasattr(msg, 'fix_type')` check); `satellites_visible` is `none` when
absent (the `getattr(msg, 'satellites_visible', 0)` default). -/
inductive MavMessage where
  | globalPositionInt (lat lon alt relative_alt vx vy vz hdg : ℤ)
  | gpsRawInt (fix_type : Option ℤ) (satellites_visible : Option ℤ)
  | other
deriving DecidableEq, Repr

/-- `MAVLinkHandler.process_message`, with `now` standing for `time.time()`. -/
def process_message (state : Option GpsData) (msg : MavMessage) (now : ℚ) : Option GpsData :=
  match msg with
  | .globalPositionInt lat lon alt relative_alt vx vy vz hdg =>
      some { lat := (lat : ℚ) / 10 ^ 7, lon := (lon : ℚ) / 10 ^ 7,
             alt := (alt : ℚ) / 1000, relative_alt := (relative_alt : ℚ) / 1000,
             vx := (vx : ℚ) / 100, vy := (vy : ℚ) / 100, vz := (vz : ℚ) / 100,
             hdg := (hdg : ℚ) / 100, timestamp := now, fix_quality := 3,
             satellites_visible := none }
  | .gpsRawInt fix_type satellites_visible =>
      match fix_type with
      | none => state
      | some ft =>
          match state with
          | none => none
          | some d =>
              some { d with
                     fix_quality := ft
                     satellites_visible := some (satellites_visible.getD 0) }
  | .other => state

/-- `MAVLinkHandler.get_current_gps`: returns the stored sample when it exists
and `time.time() - timestamp < 5.0`, else `None`. -/
def get_current_gps (state : Option GpsData) (now : ℚ) : Option GpsData :=
  match state with
  | some d => if now - d.timestamp < 5 then some d else none
  | none => none

/-- The main loop's readiness check on the snapshot
(`main_controller.py` line 258: `if not gps_data or gps_data.get('fix_quality', 0) < 3`):
ready exactly when a snapshot was returned and its fix_quality is at least 3. -/
def loopGpsReady (g : Option GpsData) : Bool :=
  match g with
  | none => false
  | some d => !(d.fix_quality < 3)

/-- `MavMessage.gpsRawInt` recogniser, for stating which messages can touch
`fix_quality` in place. -/
def isGpsRawInt : MavMessage → Bool
  | .gpsRawInt _ _ => true
  | _ => false

/-- Folding `process_message` over a timestamped message stream. -/
def processStream (state : Option GpsData) (msgs : List (MavMessage × ℚ)) : Option GpsData :=
  msgs.foldl (fun st p => process_message st p.1 p.2) state

/-! ## Coordinate formatting (`gps_data.py`) -/

/-- `GPSDataProcessor.format_for_competition`: `int(round(lat * 1e7))` for each
coordinate. -/
def format_for_competition (lat lon : ℚ) : ℤ × ℤ :=
  (roundHalfEven (lat * 10 ^ 7), roundHalfEven (lon * 10 ^ 7))

/-! ## Symbol detector (`symbol_detector.py`) -/

/-- What `analyze_contours` reads off one OpenCV contour: `cv2.contourArea`
(nonnegative by construction in OpenCV) and `cv2.boundingRect`. -/
structure Contour where
  area : ℚ
  x : ℤ
  y : ℤ
  w : ℤ
  h : ℤ
deriving DecidableEq, Repr

/-- The detection dict built in `SymbolDetector.analyze_contours`. -/
structure Detection where
  bbox : ℤ × ℤ × ℤ × ℤ
  area : ℚ
  aspect_ratio : ℚ
  fill_ratio : ℚ
  confidence : ℚ
deriving DecidableEq, Repr

/-- `SymbolDetector.calculate_detection_confidence`. -/
def calculate_detection_confidence (area aspect_ratio fill_ratio : ℚ) : ℚ :=
  let area_score := min (area / 20000) 1
  let ratio_score := if aspect_ratio ≤ 2 then 1 - |1 - aspect_ratio| else 1/2
  let fill_score := if fill_ratio ≤ 3/5 then fill_ratio else 1 - fill_ratio
  (area_score + ratio_score + fill_score) / 3

/-- The configurable thresholds read in `SymbolDetector.__init__`
(`config.get('min_symbol_area', 2000)`, `config.get('max_symbol_area', 100000)`). -/
structure SymbolDetector where
  min_symbol_area : ℚ := 2000
  max_symbol_area : ℚ := 100000
deriving DecidableEq, Repr

/-- A detector with the default configuration. -/
def defaultDetector : SymbolDetector := {}

/-- One iteration of the `for contour in contours` loop body of
`SymbolDetector.analyze_contours`: the three `continue` filters, then the
detection dict.  `none` models `continue`. -/
def analyzeOne (det : SymbolDetector) (c : Contour) : Option Detection :=
  if c.area < det.min_symbol_area ∨ det.max_symbol_area < c.area then none
  else
    let aspect_ratio := (c.w : ℚ) / (c.h : ℚ)
    if aspect_ratio < 2/5 ∨ 5/2 < aspect_ratio then none
    else
      let fill_ratio := c.area / ((c.w : ℚ) * (c.h : ℚ))
      if fill_ratio < 1/10 ∨ 9/10 < fill_ratio then none
      else some { bbox := (c.x, c.y, c.w, c.h), area := c.area,
                  aspect_ratio := aspect_ratio, fill_ratio := fill_ratio,
                  confidence := calculate_detection_confidence c.area aspect_ratio fill_ratio }

/-- The `detections` list of `analyze_contours` just before the final sort,
in contour-enumeration (discovery) order. -/
def candidateList (det : SymbolDetector) (contours : List Contour) : List Detection :=
  contours.filterMap (analyzeOne det)

/-- Stable descending insertion: place `d` after every element of strictly
greater confidence and before the first of smaller-or-equal confidence. -/
def insertDesc (d : Detection) : List Detection → List Detection
  | [] => [d]
  | e :: es => if e.confidence ≤ d.confidence then d :: e :: es else e :: insertDesc d es

/-- `detections.sort(key=lambda x: x['confidence'], reverse=True)`: Python's
sort is stable, so this is a stable sort by confidence, descending. -/
def sortDesc : List Detection → List Detection
  | [] => []
  | d :: ds => insertDesc d (sortDesc ds)

/-- `SymbolDetector.analyze_contours`: filter, score, then sort by confidence
descending (stably). -/
def analyze_contours (det : SymbolDetector) (contours : List Contour) : List Detection :=
  sortDesc (candidateList det contours)

/-! ## Armenian OCR processor (`ocr_processor.py`) -/

/-- `ArmenianOCRProcessor.armenian_symbols`: the 36-entry alphabet in reading
order (four rows of nine). -/
def armenian_symbols : List Char :=
  ['Ա', 'Բ', 'Գ', 'Դ', 'Ե', 'Զ', 'Է', 'Ը', 'Թ',
   'Ժ', 'Ի', 'Լ', 'Խ', 'Ծ', 'Կ', 'Հ', 'Ձ', 'Ղ',
   'Ճ', 'Մ', 'Յ', 'Ն', 'Շ', 'Ո', 'Չ', 'Պ', 'Ջ',
   'Ռ', 'Ս', 'Վ', 'Տ', 'Ր', 'Ց', 'Ւ', 'Փ', 'Ք']

/-- Index of the first occurrence of `c`, starting the count at `i`. -/
def lookupIdx (c : Char) : List Char → ℕ → Option ℕ
  | [], _ => none
  | x :: xs, i => if x = c then some i else lookupIdx c xs (i + 1)

/-- `ArmenianOCRProcessor.symbol_to_id`: the dict
`{symbol: idx for idx, symbol in enumerate(self.armenian_symbols)}`.
The 36 symbols are pairwise distinct (`armenian_symbols_nodup` below), so the
dict maps each symbol to its unique index: first-occurrence lookup. -/
def symbol_to_id (c : Char) : Option ℕ := lookupIdx c armenian_symbols 0

/-- `ArmenianOCRProcessor.get_symbol_id`: `None` on falsy (empty) input, else
the dict lookup of the first character. -/
def get_symbol_id (symbol_text : String) : Option ℕ :=
  if symbol_text = "" then none else symbol_to_id symbol_text.front

/-- Python `str.strip()` / `str.split()` whitespace, restricted to the ASCII
whitespace characters that can occur here. -/
def pyIsSpace (c : Char) : Bool :=
  c = ' ' || c = '\t' || c = '\n' || c = '\r' || c = '\u000B' || c = '\u000C'

/-- Python `str.strip()` on a character list. -/
def pyStrip (l : List Char) : List Char :=
  ((l.dropWhile pyIsSpace).reverse.dropWhile pyIsSpace).reverse

/-- Worker for `pySplit`: accumulates the current word (reversed). -/
def pySplitAux : List Char → List Char → List (List Char)
  | [], acc => if acc = [] then [] else [acc.reverse]
  | c :: cs, acc =>
      if pyIsSpace c then
        if acc = [] then pySplitAux cs [] else acc.reverse :: pySplitAux cs []
      else pySplitAux cs (c :: acc)

/-- Python `str.split()` with no argument: maximal nonempty runs of
non-whitespace characters. -/
def pySplit (l : List Char) : List (List Char) := pySplitAux l []

/-- The character filter of `clean_armenian_text`:
`'԰' <= char <= '֏'` (the Armenian Unicode block). -/
def isArmenianChar (c : Char) : Bool := '԰' ≤ c && c ≤ '֏'

/-- `ArmenianOCRProcessor.clean_armenian_text`: falsy guard, strip, replace
newlines by spaces, delete carriage returns, collapse internal whitespace via
`' '.join(text.split())`, keep only Armenian-block characters, final strip. -/
def clean_armenian_text (text : String) : String :=
  if text = "" then ""
  else
    let stripped := pyStrip text.data
    let replaced :=
      (stripped.map fun c => if c = '\n' then ' ' else c).filter fun c => !(c = '\r')
    let collapsed := List.intercalate [' '] (pySplit replaced)
    let armenian_chars := collapsed.filter isArmenianChar
    String.mk (pyStrip armenian_chars)

/-- The dict returned by `recognize_armenian_text`.  The success path also has
`raw_text`/`word_confidences` keys and the exception path an `error` key;
missing keys are `none`. -/
structure OcrResult where
  text : String
  confidence : ℚ
  symbol_id : Option ℕ
  raw_text : Option String := none
  word_confidences : Option (List ℤ) := none
  error : Option String := none
deriving DecidableEq, Repr

/-- A numpy image region as far as `recognize_armenian_text` inspects it:
its total element count (`image_region.size`). -/
structure ImageRegion where
  size : ℕ
deriving DecidableEq, Repr

/-- The external collaborators of `recognize_armenian_text`:
whether `pytesseract` imported, and one oracle standing for the whole
`try`-block pipeline (preprocessing plus `image_to_string`/`image_to_data`),
yielding the raw text and the `data['conf']` integer list, or an exception. -/
structure OcrEnv where
  tesseract_available : Bool
  engine : ImageRegion → Except String (String × List ℤ)

/-- `ArmenianOCRProcessor.recognize_armenian_text`.  The `except` clause of the
source becomes the `.error` branch; the function itself is total. -/
def recognize_armenian_text (env : OcrEnv) (image_region : Option ImageRegion) : OcrResult :=
  if env.tesseract_available = false then { text := "", confidence := 0, symbol_id := none }
  else
    match image_region with
    | none => { text := "", confidence := 0, symbol_id := none }
    | some img =>
        if img.size = 0 then { text := "", confidence := 0, symbol_id := none }
        else
          match env.engine img with
          | .error e => { text := "", confidence := 0, symbol_id := none, error := some e }
          | .ok (text, conf_data) =>
              let confidences := conf_data.filter fun c => 0 < c
              let avg_confidence : ℚ :=
                if confidences = [] then 0 else (confidences.sum : ℚ) / confidences.length
              let cleaned_text := clean_armenian_text text
              { text := cleaned_text, confidence := avg_confidence / 100,
                symbol_id := get_symbol_id cleaned_text, raw_text := some text,
                word_confidences := some confidences }

/-! ## Buffered detection log (`excel_logger.py`) -/

/-- The arguments of `ExcelLogger.log_detection`. -/
structure DetectionInput where
  symbol : String
  confidence : ℚ
  gps_lat : ℚ
  gps_lon : ℚ
  gps_alt : ℚ
  timestamp : ℚ
  image_path : String
  detection_bbox : ℤ × ℤ × ℤ × ℤ
  symbol_id : Option ℕ := none
deriving DecidableEq, Repr

/-- The `detection_data` dict appended to `data_buffer`.  The `Timestamp` cell
holds a wall-clock rendering of the timestamp
(`datetime.fromtimestamp(...).strftime(...)`); we keep the timestamp value the
rendering is a function of. -/
structure DetectionRow where
  timestamp : ℚ
  symbol : String
  symbol_id : Option ℕ
  confidence : ℚ
  gps_lat : ℚ
  gps_lon : ℚ
  gps_alt : ℚ
  image_path : String
  detection_x : ℤ
  detection_y : ℤ
  detection_w : ℤ
  detection_h : ℤ
deriving DecidableEq, Repr

/-- The row `log_detection` builds from its arguments, with Python's `round`. -/
def mkDetectionRow (d : DetectionInput) : DetectionRow :=
  { timestamp := d.timestamp, symbol := d.symbol, symbol_id := d.symbol_id,
    confidence := pyRoundTo 3 d.confidence, gps_lat := pyRoundTo 8 d.gps_lat,
    gps_lon := pyRoundTo 8 d.gps_lon, gps_alt := pyRoundTo 2 d.gps_alt,
    image_path := d.image_path, detection_x := d.detection_bbox.1,
    detection_y := d.detection_bbox.2.1, detection_w := d.detection_bbox.2.2.1,
    detection_h := d.detection_bbox.2.2.2 }

/-- One `symbol_id,lat_e7,lon_e7` line of the competition coordinate file. -/
structure CompetitionEntry where
  symbol_id : ℕ
  lat_e7 : ℤ
  lon_e7 : ℤ
deriving DecidableEq, Repr

/-- The `competition_entry` dict `log_detection` appends to `csv_buffer` when
`symbol_id is not None`, via `format_for_competition`. -/
def competitionEntryOf (d : DetectionInput) : Option CompetitionEntry :=
  d.symbol_id.map fun id =>
    { symbol_id := id, lat_e7 := (format_for_competition d.gps_lat d.gps_lon).1,
      lon_e7 := (format_for_competition d.gps_lat d.gps_lon).2 }

/-- The mutable state of an `ExcelLogger`: the two in-memory buffers and the
logical row/line contents of the two persisted files.  `flush_count` counts
the Excel flushes that actually wrote (the nonempty-buffer writes). -/
structure LoggerState where
  data_buffer : List DetectionRow
  csv_buffer : List CompetitionEntry
  excel_rows : List DetectionRow
  csv_lines : List CompetitionEntry
  flush_count : ℕ
deriving DecidableEq, Repr

/-- A fresh logger: empty buffers, header-only workbook, empty coordinate
file (`create_flight_file` / `create_competition_csv`). -/
def emptyLogger : LoggerState :=
  { data_buffer := [], csv_buffer := [], excel_rows := [], csv_lines := [], flush_count := 0 }

/-- `ExcelLogger.flush_to_excel`: early return on an empty buffer; otherwise
read all persisted rows back, concatenate the buffer, rewrite, and clear the
buffer only after the successful write. -/
def flush_to_excel (s : LoggerState) : LoggerState :=
  if s.data_buffer = [] then s
  else
    { s with
      excel_rows := s.excel_rows ++ s.data_buffer
      data_buffer := []
      flush_count := s.flush_count + 1 }

/-- `ExcelLogger.flush_to_competition_csv`: early return on an empty buffer;
otherwise append each buffered entry as one line and clear the buffer. -/
def flush_to_competition_csv (s : LoggerState) : LoggerState :=
  if s.csv_buffer = [] then s
  else { s with csv_lines := s.csv_lines ++ s.csv_buffer, csv_buffer := [] }

/-- `ExcelLogger.log_detection`: append the row (and, when `symbol_id` is
non-null, the coordinate entry), then flush both buffers once the detection
buffer has reached 5 entries (`if len(self.data_buffer) >= 5`). -/
def log_detection (s : LoggerState) (d : DetectionInput) : LoggerState :=
  let s1 :=
    { s with
      data_buffer := s.data_buffer ++ [mkDetectionRow d]
      csv_buffer := s.csv_buffer ++ (competitionEntryOf d).toList }
  if 5 ≤ s1.data_buffer.length then flush_to_competition_csv (flush_to_excel s1) else s1

/-- `ExcelLogger.close`: force-flush both buffers.  `create_summary_report`
only reads the persisted workbooks and writes a separate summary artifact; it
changes neither file modelled here. -/
def closeLogger (s : LoggerState) : LoggerState :=
  flush_to_competition_csv (flush_to_excel s)

/-! ## Concrete sample values used to instantiate the theorems -/

/-- A telemetry sample with a degraded fix (`fix_quality = 2`) taken at time 0. -/
def lowFixSample : GpsData :=
  { lat := 40, lon := 45, alt := 100, relative_alt := 50, vx := 0, vy := 0, vz := 0,
    hdg := 0, timestamp := 0, fix_quality := 2, satellites_visible := none }

/-- A 4000 px² contour with a near-square 75×76 bounding box, hence
`aspect_ratio = 75/76 ≈ 0.99` and `fill_ratio = 4000/5700 = 40/57 ≈ 0.70`. -/
def contour4000 : Contour := ⟨4000, 0, 0, 75, 76⟩

/-- The detection `analyze_contours` produces for `contour4000`:
`confidence = (1/5 + 75/76 + 17/57) / 3 = 1693/3420 ≈ 0.495`. -/
def detection4000 : Detection :=
  { bbox := (0, 0, 75, 76), area := 4000, aspect_ratio := 75/76, fill_ratio := 40/57,
    confidence := 1693/3420 }

/-- A sample `log_detection` argument tuple. -/
def sampleDetectionInput : DetectionInput :=
  { symbol := "Ա", confidence := 9/10, gps_lat := 40, gps_lon := 45, gps_alt := 100,
    timestamp := 0, image_path := "img_0.jpg", detection_bbox := (1, 2, 3, 4),
    symbol_id := some 0 }

/-- An OCR environment whose engine always throws. -/
def failingOcrEnv : OcrEnv := { tesseract_available := true, engine := fun _ => .error "boom" }

/-! ## General lemmas about the embedded operations -/

/-- Rounding an integer returns that integer. -/
theorem roundHalfEven_intCast (n : ℤ) : roundHalfEven (n : ℚ) = n := by
  norm_num [roundHalfEven]

/-- The 36 alphabet entries are pairwise distinct, so the
`{symbol: idx}` dict comprehension keeps every index. -/
theorem armenian_symbols_nodup : armenian_symbols.Nodup := by decide

/-- Looking up a character absent from the list yields `none`. -/
theorem lookupIdx_eq_none {c : Char} :
    ∀ {l : List Char} (i : ℕ), c ∉ l → lookupIdx c l i = none := by
  intro l
  induction l with
  | nil => intro i _; rfl
  | cons x xs ih =>
      intro i h
      rw [List.mem_cons, not_or] at h
      rw [lookupIdx, if_neg fun e => h.1 e.symm]
      exact ih _ h.2

/-! ## Claim theorems -/

/-- Claim C1, counterexample: a telemetry sample with `fix_quality = 2` that is
only 1 second old is returned by `get_current_gps` — not reported absent — so
the claim that the snapshot is absent whenever `fix_quality < 3` is false on
the code. -/
theorem C1_counterexample :
    lowFixSample.fix_quality < 3 ∧ (1 : ℚ) - lowFixSample.timestamp < 5 ∧
    get_current_gps (some lowFixSample) 1 = some lowFixSample := by
  refine ⟨by decide, by norm_num [lowFixSample], ?_⟩
  norm_num [get_current_gps, lowFixSample]

/-- Claim C1, amended: `get_current_gps` gates only on staleness — it returns
`none` exactly when no sample is stored or the sample is at least 5.0 s old,
and never inspects `fix_quality`; the `fix_quality ≥ 3` requirement is
enforced by the main loop's readiness check on the returned snapshot, which
rejects a snapshot exactly when it is absent or has `fix_quality < 3`. -/
theorem C1_get_current_gps_staleness_only (d : GpsData) (now : ℚ) :
    (5 ≤ now - d.timestamp → get_current_gps (some d) now = none) ∧
    (now - d.timestamp < 5 → get_current_gps (some d) now = some d) ∧
    get_current_gps none now = none ∧
    (loopGpsReady (get_current_gps (some d) now) = true ↔
      now - d.timestamp < 5 ∧ 3 ≤ d.fix_quality) := by
  refine ⟨fun h => ?_, fun h => ?_, rfl, ?_⟩
  · rw [get_current_gps, if_neg (not_lt.mpr h)]
  · rw [get_current_gps, if_pos h]
  · by_cases h : now - d.timestamp < 5
    · simp [get_current_gps, h, loopGpsReady, not_lt]
    · simp [get_current_gps, h, loopGpsReady]

/-- Witness for the amended C1 theorem: a 10-second-old sample is reported
absent even though its `fix_quality` is below 3, and a 1-second-old sample
with `fix_quality = 2` fails the loop readiness check. -/
theorem C1_get_current_gps_staleness_only_witness :
    get_current_gps (some lowFixSample) 10 = none ∧
    ¬ loopGpsReady (get_current_gps (some lowFixSample) 1) = true := by
  constructor
  · exact (C1_get_current_gps_staleness_only lowFixSample 10).1 (by norm_num [lowFixSample])
  · intro h
    have := ((C1_get_current_gps_staleness_only lowFixSample 1).2.2.2.mp h).2
    revert this
    decide

/-- Claim C7: `format_for_competition` scales each coordinate by 10⁷ and
rounds to the nearest integer, and the result round-trips at 10⁻⁷ precision:
rounding `lat_e7 / 1e7` to 7 decimal digits equals rounding `lat` to 7 decimal
digits.  Python floats are modelled as exact rationals; `round` is Python's
round-half-to-even. -/
theorem C7_format_for_competition_round_trip (lat lon : ℚ) :
    format_for_competition lat lon =
      (roundHalfEven (lat * 10 ^ 7), roundHalfEven (lon * 10 ^ 7)) ∧
    pyRoundTo 7 (((format_for_competition lat lon).1 : ℚ) / 10 ^ 7) = pyRoundTo 7 lat ∧
    pyRoundTo 7 (((format_for_competition lat lon).2 : ℚ) / 10 ^ 7) = pyRoundTo 7 lon := by
  refine ⟨rfl, ?_, ?_⟩ <;>
  · rw [pyRoundTo, pyRoundTo, format_for_competition]
    rw [div_mul_cancel₀ _ (by norm_num : ((10 : ℚ) ^ 7) ≠ 0), roundHalfEven_intCast]

/-- Claim C10: every `GLOBAL_POSITION_INT` message overwrites the stored
snapshot with `fix_quality` unconditionally set to 3, and as long as no
`GPS_RAW_INT` message follows, the stored snapshot keeps `fix_quality = 3`
and thus satisfies the `fix_quality ≥ 3` gating condition. -/
theorem C10_position_message_forces_fix3 (s : Option GpsData)
    (lat lon alt relative_alt vx vy vz hdg : ℤ) (now : ℚ)
    (ms : List (MavMessage × ℚ)) (hms : ∀ p ∈ ms, isGpsRawInt p.1 = false) :
    ∃ d, processStream
        (process_message s (.globalPositionInt lat lon alt relative_alt vx vy vz hdg) now)
        ms = some d ∧ d.fix_quality = 3 ∧
      loopGpsReady (some d) = true := by
  have main : ∀ (l : List (MavMessage × ℚ)) (st : Option GpsData),
      (∃ d, st = some d ∧ d.fix_quality = 3) → (∀ p ∈ l, isGpsRawInt p.1 = false) →
      ∃ d, processStream st l = some d ∧ d.fix_quality = 3 := by
    intro l
    induction l with
    | nil => intro st h _; simpa [processStream] using h
    | cons p ps ih =>
        intro st h hall
        obtain ⟨d, rfl, hd⟩ := h
        have hstep : processStream (some d) (p :: ps) =
            processStream (process_message (some d) p.1 p.2) ps := by
          simp [processStream]
        rw [hstep]
        have hp := hall p (List.mem_cons_self p ps)
        have htail := fun q hq => hall q (List.mem_cons_of_mem p hq)
        cases hmsg : p.1 with
        | globalPositionInt a b c e f g i j =>
            refine ih _ ⟨_, rfl, ?_⟩ htail
            rfl
        | gpsRawInt a b => rw [hmsg] at hp; simp [isGpsRawInt] at hp
        | other => exact ih _ ⟨d, rfl, hd⟩ htail
  obtain ⟨d, hd, hfix⟩ := main ms
    (process_message s (.globalPositionInt lat lon alt relative_alt vx vy vz hdg) now)
    ⟨_, rfl, by rfl⟩ hms
  exact ⟨d, hd, hfix, by simp [loopGpsReady, hfix]⟩

/-- Witness for C10: from an empty store, one position message followed by an
unrelated message leaves a snapshot with `fix_quality = 3`. -/
theorem C10_position_message_forces_fix3_witness :
    ∃ d, processStream
        (process_message none (.globalPositionInt 0 0 0 0 0 0 0 0) 0)
        [(MavMessage.other, 1)] = some d ∧ d.fix_quality = 3 ∧
      loopGpsReady (some d) = true :=
  C10_position_message_forces_fix3 none 0 0 0 0 0 0 0 0 0
    [(MavMessage.other, 1)] (by decide)

/-- Claim C6: `get_symbol_id` depends only on the first character of the
cleaned text — two nonempty inputs with the same first character map to the
same ID — a first character outside the 36-entry table yields `none`, and the
empty input yields `none`.  Totality of the Lean function witnesses that the
source never raises (the only indexing, `symbol_text[0]`, is guarded by the
falsy check). -/
theorem C6_get_symbol_id_first_char (s t : String) (hs : s ≠ "") (ht : t ≠ "")
    (hfirst : s.front = t.front) :
    get_symbol_id s = get_symbol_id t ∧
    (s.front ∉ armenian_symbols → get_symbol_id s = none) ∧
    get_symbol_id "" = none := by
  refine ⟨?_, fun h => ?_, by simp [get_symbol_id]⟩
  · rw [get_symbol_id, get_symbol_id, if_neg hs, if_neg ht, hfirst]
  · rw [get_symbol_id, if_neg hs, symbol_to_id]
    exact lookupIdx_eq_none 0 h

/-- Witness for C6: two strings sharing the first character `Ա` get the same
ID. -/
theorem C6_get_symbol_id_first_char_witness :
    get_symbol_id "ԱԲ" = get_symbol_id "ԱԳ" :=
  (C6_get_symbol_id_first_char "ԱԲ" "ԱԳ" (by decide) (by decide) (by decide)).1

/-- Characters surviving `List.dropWhile` were in the original list. -/
theorem mem_of_mem_dropWhile {p : Char → Bool} {c : Char} :
    ∀ {l : List Char}, c ∈ l.dropWhile p → c ∈ l := by
  intro l
  induction l with
  | nil => simp [List.dropWhile]
  | cons x xs ih =>
      intro h
      rw [List.dropWhile_cons] at h
      split at h
      · exact List.mem_cons_of_mem _ (ih h)
      · exact h

/-- Characters surviving a Python strip were in the original list. -/
theorem mem_of_mem_pyStrip {c : Char} {l : List Char} (h : c ∈ pyStrip l) : c ∈ l := by
  rw [pyStrip, List.mem_reverse] at h
  have h1 := mem_of_mem_dropWhile h
  rw [List.mem_reverse] at h1
  exact mem_of_mem_dropWhile h1

/-- Claim C8: every character of the string returned by
`clean_armenian_text` lies in the Armenian Unicode block
U+0530 through U+058F; mixed-script or punctuated input is reduced to its
Armenian-block subset, possibly empty. -/
theorem C8_clean_armenian_text_block (s : String) (c : Char)
    (hc : c ∈ (clean_armenian_text s).data) :
    '԰' ≤ c ∧ c ≤ '֏' := by
  rw [clean_armenian_text] at hc
  by_cases hs : s = ""
  · rw [if_pos hs] at hc
    simp at hc
  · rw [if_neg hs] at hc
    have h2 := mem_of_mem_pyStrip hc
    have h3 := List.of_mem_filter h2
    simpa [isArmenianChar] using h3

/-- Witness for C8: cleaning the mixed-script input `xԱ!` leaves `Ա`, which is
inside the Armenian block. -/
theorem C8_clean_armenian_text_block_witness :
    '԰' ≤ 'Ա' ∧ 'Ա' ≤ '֏' :=
  C8_clean_armenian_text_block "xԱ!" 'Ա' (by decide)

/-- Claim C5: `recognize_armenian_text` is total (the catch-all `except`
returns a result instead of re-raising), and on an unavailable OCR engine, an
absent region, or an empty region it returns empty text, confidence 0 and
null `symbol_id`; when the engine pipeline throws, the caught result also has
empty text, confidence 0 and null `symbol_id`. -/
theorem C5_recognize_never_raises (env : OcrEnv) (region : Option ImageRegion) :
    (env.tesseract_available = false →
      recognize_armenian_text env region = { text := "", confidence := 0, symbol_id := none }) ∧
    (region = none →
      recognize_armenian_text env region = { text := "", confidence := 0, symbol_id := none }) ∧
    (∀ img, region = some img → img.size = 0 →
      recognize_armenian_text env region = { text := "", confidence := 0, symbol_id := none }) ∧
    (∀ img e, region = some img → img.size ≠ 0 → env.tesseract_available = true →
      env.engine img = .error e →
      recognize_armenian_text env region =
        { text := "", confidence := 0, symbol_id := none, error := some e }) := by
  refine ⟨fun h => ?_, ?_, ?_, ?_⟩
  · simp [recognize_armenian_text, h]
  · rintro rfl
    by_cases h : env.tesseract_available <;> simp [recognize_armenian_text, h]
  · rintro img rfl hsz
    by_cases h : env.tesseract_available <;> simp [recognize_armenian_text, h, hsz]
  · rintro img e rfl hsz havail herr
    simp [recognize_armenian_text, havail, hsz, herr]

/-- Witness for C5: the always-throwing engine on a nonempty region yields the
empty-text, zero-confidence, null-id result. -/
theorem C5_recognize_never_raises_witness :
    recognize_armenian_text failingOcrEnv (some ⟨4⟩) =
      { text := "", confidence := 0, symbol_id := none, error := some "boom" } :=
  (C5_recognize_never_raises failingOcrEnv (some ⟨4⟩)).2.2.2 ⟨4⟩ "boom" rfl
    (by decide) rfl rfl

/-- Membership in a stable descending insertion. -/
theorem mem_insertDesc {e d : Detection} :
    ∀ {l : List Detection}, e ∈ insertDesc d l ↔ e = d ∨ e ∈ l := by
  intro l
  induction l with
  | nil => simp [insertDesc]
  | cons x xs ih =>
      rw [insertDesc]
      split
      · simp [List.mem_cons]
      · rw [List.mem_cons, ih, List.mem_cons]
        tauto

/-- `sortDesc` is a permutation at the level of membership. -/
theorem mem_sortDesc {e : Detection} :
    ∀ {l : List Detection}, e ∈ sortDesc l ↔ e ∈ l := by
  intro l
  induction l with
  | nil => simp [sortDesc]
  | cons x xs ih => simp [sortDesc, mem_insertDesc, ih]

/-- Inserting keeps the list sorted by confidence, descending. -/
theorem pairwise_insertDesc (d : Detection) :
    ∀ {l : List Detection}, l.Pairwise (fun a b => b.confidence ≤ a.confidence) →
      (insertDesc d l).Pairwise (fun a b => b.confidence ≤ a.confidence) := by
  intro l
  induction l with
  | nil => simp [insertDesc]
  | cons x xs ih =>
      intro h
      have h' := List.pairwise_cons.mp h
      rw [insertDesc]
      split
      · rename_i hx
        exact List.Pairwise.cons
          (fun e he => (List.mem_cons.mp he).elim (fun hex => hex ▸ hx)
            (fun hmem => le_trans (h'.1 e hmem) hx)) h
      · rename_i hx
        exact List.Pairwise.cons
          (fun e he => (mem_insertDesc.mp he).elim
            (fun hex => hex ▸ le_of_lt (not_le.mp hx)) (fun hmem => h'.1 e hmem))
          (ih h'.2)

/-- The output of `sortDesc` is sorted by confidence, descending. -/
theorem pairwise_sortDesc :
    ∀ (l : List Detection), (sortDesc l).Pairwise (fun a b => b.confidence ≤ a.confidence) := by
  intro l
  induction l with
  | nil => simp [sortDesc]
  | cons x xs ih => exact pairwise_insertDesc x ih

/-- Stability, inserted element included: inserting `d` with confidence `q`
prepends `d` to the `q`-confidence subsequence, because every element `d` is
placed after has strictly greater confidence. -/
theorem filter_insertDesc_of_eq {d : Detection} {q : ℚ} (hd : d.confidence = q) :
    ∀ (l : List Detection),
      (insertDesc d l).filter (fun e => decide (e.confidence = q)) =
        d :: l.filter (fun e => decide (e.confidence = q)) := by
  intro l
  induction l with
  | nil => simp [insertDesc, List.filter, hd]
  | cons x xs ih =>
      rw [insertDesc]
      split
      · simp [List.filter_cons, hd]
      · rename_i hx
        have hxq : ¬ x.confidence = q := fun e => hx (le_of_eq (e.trans hd.symm))
        simp [List.filter_cons, hxq, ih]

/-- Stability, other elements: inserting an element of a different confidence
leaves the `q`-confidence subsequence untouched. -/
theorem filter_insertDesc_of_ne {d : Detection} {q : ℚ} (hd : ¬ d.confidence = q) :
    ∀ (l : List Detection),
      (insertDesc d l).filter (fun e => decide (e.confidence = q)) =
        l.filter (fun e => decide (e.confidence = q)) := by
  intro l
  induction l with
  | nil => simp [insertDesc, List.filter, hd]
  | cons x xs ih =>
      rw [insertDesc]
      split
      · simp [List.filter_cons, hd]
      · simp [List.filter_cons, ih]

/-- `sortDesc` preserves, for every confidence value, the original relative
order of the elements carrying it. -/
theorem filter_sortDesc (q : ℚ) :
    ∀ (l : List Detection),
      (sortDesc l).filter (fun e => decide (e.confidence = q)) =
        l.filter (fun e => decide (e.confidence = q)) := by
  intro l
  induction l with
  | nil => rfl
  | cons x xs ih =>
      by_cases hx : x.confidence = q
      · rw [sortDesc, filter_insertDesc_of_eq hx, ih, List.filter_cons]
        simp [hx]
      · rw [sortDesc, filter_insertDesc_of_ne hx, ih, List.filter_cons]
        simp [hx]

/-- Evaluating the loop body on the sample contour: accepted, with
`confidence = (1/5 + 75/76 + 17/57) / 3 = 1693/3420`. -/
theorem analyzeOne_contour4000 :
    analyzeOne defaultDetector contour4000 = some detection4000 := by
  rw [analyzeOne]
  norm_num [defaultDetector, contour4000, detection4000, calculate_detection_confidence, min_def]
  rw [abs_of_nonneg (show (0 : ℚ) ≤ 1/76 by norm_num)]
  norm_num

/-- Evaluating the full detection call on the sample contour. -/
theorem analyze_contours_contour4000 :
    analyze_contours defaultDetector [contour4000] = [detection4000] := by
  simp only [analyze_contours, candidateList, List.filterMap_cons, analyzeOne_contour4000,
    List.filterMap_nil, sortDesc, insertDesc]

/-- Confidence score bounds for any contour surviving the three filters. -/
theorem calculate_detection_confidence_bounds {area ar fill : ℚ} (h0 : 0 ≤ area)
    (h1 : 2/5 ≤ ar) (h2 : ar ≤ 5/2) (h3 : 1/10 ≤ fill) (h4 : fill ≤ 9/10) :
    0 ≤ calculate_detection_confidence area ar fill ∧
      calculate_detection_confidence area ar fill ≤ 1 := by
  simp only [calculate_detection_confidence]
  have has0 : (0 : ℚ) ≤ min (area / 20000) 1 := le_min (by positivity) (by norm_num)
  have has1 : min (area / 20000) 1 ≤ 1 := min_le_right _ _
  have hrs : (0 : ℚ) ≤ (if ar ≤ 2 then 1 - |1 - ar| else 1/2) ∧
      (if ar ≤ 2 then 1 - |1 - ar| else 1/2) ≤ (1 : ℚ) := by
    split
    · rename_i har
      have habs : |1 - ar| ≤ 1 := abs_le.mpr ⟨by linarith, by linarith⟩
      have habs0 : (0 : ℚ) ≤ |1 - ar| := abs_nonneg _
      constructor <;> linarith
    · norm_num
  have hfs : (0 : ℚ) ≤ (if fill ≤ 3/5 then fill else 1 - fill) ∧
      (if fill ≤ 3/5 then fill else 1 - fill) ≤ (1 : ℚ) := by
    split <;> constructor <;> linarith
  constructor <;> linarith [hrs.1, hrs.2, hfs.1, hfs.2]

/-- Claim C4: every candidate returned by `analyze_contours` has area within
`[min_symbol_area, max_symbol_area]`, aspect ratio within `[0.4, 2.5]`, fill
ratio within `[0.1, 0.9]`, and confidence within `[0, 1]`.  The hypothesis
that contour areas are nonnegative reflects `cv2.contourArea`, which never
returns a negative value. -/
theorem C4_candidate_invariants (det : SymbolDetector) (contours : List Contour)
    (hpos : ∀ c ∈ contours, 0 ≤ c.area)
    (d : Detection) (hd : d ∈ analyze_contours det contours) :
    det.min_symbol_area ≤ d.area ∧ d.area ≤ det.max_symbol_area ∧
    2/5 ≤ d.aspect_ratio ∧ d.aspect_ratio ≤ 5/2 ∧
    1/10 ≤ d.fill_ratio ∧ d.fill_ratio ≤ 9/10 ∧
    0 ≤ d.confidence ∧ d.confidence ≤ 1 := by
  rw [analyze_contours] at hd
  have hd' := mem_sortDesc.mp hd
  obtain ⟨c, hc, hone⟩ := List.mem_filterMap.mp hd'
  simp only [analyzeOne] at hone
  split at hone
  · exact absurd hone (by simp)
  · rename_i harea
    split at hone
    · exact absurd hone (by simp)
    · rename_i hratio
      split at hone
      · exact absurd hone (by simp)
      · rename_i hfill
        rw [not_or, not_lt, not_lt] at harea hratio hfill
        have hd2 := (Option.some.injEq _ _).mp hone
        subst hd2
        refine ⟨harea.1, harea.2, hratio.1, hratio.2, hfill.1, hfill.2, ?_⟩
        exact calculate_detection_confidence_bounds (hpos c hc)
          hratio.1 hratio.2 hfill.1 hfill.2

/-- Witness for C4 at a concrete contour: the candidate produced for
`contour4000` satisfies all the invariant bounds. -/
theorem C4_candidate_invariants_witness :
    defaultDetector.min_symbol_area ≤ detection4000.area ∧
    detection4000.area ≤ defaultDetector.max_symbol_area ∧
    2/5 ≤ detection4000.aspect_ratio ∧ detection4000.aspect_ratio ≤ 5/2 ∧
    1/10 ≤ detection4000.fill_ratio ∧ detection4000.fill_ratio ≤ 9/10 ∧
    0 ≤ detection4000.confidence ∧ detection4000.confidence ≤ 1 :=
  C4_candidate_invariants defaultDetector [contour4000]
    (by intro c hc; rw [List.mem_singleton] at hc; subst hc; norm_num [contour4000])
    detection4000 (by rw [analyze_contours_contour4000]; exact List.mem_singleton_self _)

/-- Claim C2, counterexample: the 4000 px², near-square, ≈70 %-filled contour
is accepted, but its confidence is `1693/3420 ≈ 0.495`, which is not strictly
greater than 0.6 — the claimed `confidence > 0.6` is false on the code. -/
theorem C2_counterexample :
    analyze_contours defaultDetector [contour4000] = [detection4000] ∧
    detection4000.confidence = 1693/3420 ∧
    ¬ (3/5 : ℚ) < detection4000.confidence := by
  refine ⟨analyze_contours_contour4000, by norm_num [detection4000], by norm_num [detection4000]⟩

/-- Claim C2, amended: the Detector accepts the 4000 px² near-square
(`aspect_ratio = 75/76 ≈ 1.0`), ≈70 %-filled (`fill_ratio = 40/57 ≈ 0.7`)
contour as a candidate with confidence `1693/3420 ≈ 0.495`; its confidence is
not greater than 0.6 — indeed no contour of pixel area 4000 that passes the
filters can score above 0.6, because `area_score = 4000/20000 = 0.2`,
`ratio_score ≤ 1` and `fill_score ≤ 0.6`. -/
theorem C2_area4000_confidence (ar fill : ℚ)
    (h1 : 2/5 ≤ ar) (h2 : ar ≤ 5/2) (h3 : 1/10 ≤ fill) (h4 : fill ≤ 9/10) :
    calculate_detection_confidence 4000 ar fill ≤ 3/5 ∧
    analyze_contours defaultDetector [contour4000] = [detection4000] ∧
    detection4000.confidence = 1693/3420 := by
  refine ⟨?_, analyze_contours_contour4000, by norm_num [detection4000]⟩
  simp only [calculate_detection_confidence]
  have hmin : min ((4000 : ℚ) / 20000) 1 = 1/5 := by norm_num
  have hrs : (if ar ≤ 2 then 1 - |1 - ar| else 1/2) ≤ (1 : ℚ) := by
    split
    · have habs0 : (0 : ℚ) ≤ |1 - ar| := abs_nonneg _
      linarith
    · norm_num
  have hfs : (if fill ≤ 3/5 then fill else 1 - fill) ≤ (3/5 : ℚ) := by
    split <;> linarith
  rw [hmin]
  linarith

/-- Witness for the amended C2 theorem at `aspect_ratio = 1`,
`fill_ratio = 0.7`. -/
theorem C2_area4000_confidence_witness :
    calculate_detection_confidence 4000 1 (7/10) ≤ 3/5 ∧
    analyze_contours defaultDetector [contour4000] = [detection4000] ∧
    detection4000.confidence = 1693/3420 :=
  C2_area4000_confidence 1 (7/10) (by norm_num) (by norm_num) (by norm_num) (by norm_num)

/-- Claim C9: the candidate list returned by one `analyze_contours` call is
sorted by confidence in descending order, and for every confidence value the
candidates carrying it keep their original contour-enumeration order
(`candidateList` is the pre-sort discovery order; Python's `list.sort` is
stable). -/
theorem C9_sorted_descending_stable (det : SymbolDetector) (contours : List Contour) :
    (analyze_contours det contours).Pairwise (fun a b => b.confidence ≤ a.confidence) ∧
    ∀ q : ℚ, (analyze_contours det contours).filter (fun e => decide (e.confidence = q)) =
      (candidateList det contours).filter (fun e => decide (e.confidence = q)) :=
  ⟨pairwise_sortDesc _, fun q => filter_sortDesc q _⟩

/-- `filterMap` over a one-element extension appends the image when defined. -/
theorem filterMap_concat_toList {α β : Type} (f : α → Option β) (l : List α) (a : α) :
    List.filterMap f (l ++ [a]) = List.filterMap f l ++ (f a).toList := by
  cases h : f a <;> simp [List.filterMap_append, h]

/-- Effect of `close` on the two files: both buffers are appended to their
files (flushing an empty buffer is a no-op that leaves the file equal to
file ++ buffer anyway). -/
theorem closeLogger_spec (s : LoggerState) :
    (closeLogger s).excel_rows = s.excel_rows ++ s.data_buffer ∧
    (closeLogger s).csv_lines = s.csv_lines ++ s.csv_buffer := by
  obtain ⟨db, cb, er, cl, fc⟩ := s
  by_cases h1 : db = [] <;> by_cases h2 : cb = [] <;>
    simp [closeLogger, flush_to_excel, flush_to_competition_csv, h1, h2]

/-- Run invariant of the detection log: starting from empty buffers, after any
sequence of `log_detection` calls the workbook plus the buffer hold every
recorded row exactly once in order (likewise the coordinate file plus its
buffer), the buffer holds the last `n % 5` rows, and exactly `n / 5` flush
writes have happened. -/
theorem log_detection_run_invariant (ds : List DetectionInput) (s0 : LoggerState)
    (hb : s0.data_buffer = []) (hc : s0.csv_buffer = []) :
    (ds.foldl log_detection s0).excel_rows ++ (ds.foldl log_detection s0).data_buffer =
        s0.excel_rows ++ ds.map mkDetectionRow ∧
    (ds.foldl log_detection s0).csv_lines ++ (ds.foldl log_detection s0).csv_buffer =
        s0.csv_lines ++ ds.filterMap competitionEntryOf ∧
    (ds.foldl log_detection s0).data_buffer.length = ds.length % 5 ∧
    (ds.foldl log_detection s0).flush_count = s0.flush_count + ds.length / 5 := by
  induction ds using List.reverseRecOn with
  | nil => simp [hb, hc]
  | append_singleton l a ih =>
      obtain ⟨ih1, ih2, ih3, ih4⟩ := ih
      rw [List.foldl_append, List.foldl_cons, List.foldl_nil]
      have hgen : ∃ db cb er cl fc,
          l.foldl log_detection s0 = LoggerState.mk db cb er cl fc :=
        ⟨_, _, _, _, _, rfl⟩
      obtain ⟨db, cb, er, cl, fc, hgen⟩ := hgen
      rw [hgen] at ih1 ih2 ih3 ih4 ⊢
      dsimp only at ih1 ih2 ih3 ih4
      rw [log_detection]
      dsimp only
      simp only [List.length_append, List.length_cons, List.length_nil, Nat.zero_add,
        List.map_append, List.map_cons, List.map_nil,
        filterMap_concat_toList]
      by_cases hfull : 5 ≤ db.length + 1
      · rw [if_pos hfull]
        rw [flush_to_excel]
        dsimp only
        rw [if_neg (by simp : ¬ (db ++ [mkDetectionRow a] = []))]
        rw [flush_to_competition_csv]
        dsimp only
        by_cases hcsv : cb ++ (competitionEntryOf a).toList = []
        · rw [if_pos hcsv]
          dsimp only
          refine ⟨?_, ?_, ?_, ?_⟩
          · rw [List.append_nil, ← List.append_assoc, ih1, List.append_assoc]
          · rw [← List.append_assoc, ih2, List.append_assoc]
          · simp only [List.length_nil]
            omega
          · omega
        · rw [if_neg hcsv]
          dsimp only
          refine ⟨?_, ?_, ?_, ?_⟩
          · rw [List.append_nil, ← List.append_assoc, ih1, List.append_assoc]
          · rw [List.append_nil, ← List.append_assoc, ih2, List.append_assoc]
          · simp only [List.length_nil]
            omega
          · omega
      · rw [if_neg hfull]
        dsimp only
        refine ⟨?_, ?_, ?_, ?_⟩
        · rw [← List.append_assoc, ih1, List.append_assoc]
        · rw [← List.append_assoc, ih2, List.append_assoc]
        · simp only [List.length_append, List.length_cons, List.length_nil]
          omega
        · omega

/-- Claim C3: starting from empty buffers, a run of exactly 5 successful
`log_detection` calls leaves the detection buffer empty with exactly one
flush write having occurred; and after `close`, the workbook holds every
recorded row exactly once in arrival order and the coordinate file every
derived entry exactly once — no duplication from repeated flushes, since each
flush clears the buffer it wrote. -/
theorem C3_batched_flush_exactly_once (s0 : LoggerState) (ds : List DetectionInput)
    (hb : s0.data_buffer = []) (hc : s0.csv_buffer = []) :
    (ds.length = 5 →
      (ds.foldl log_detection s0).data_buffer = [] ∧
      (ds.foldl log_detection s0).flush_count = s0.flush_count + 1) ∧
    (closeLogger (ds.foldl log_detection s0)).excel_rows =
        s0.excel_rows ++ ds.map mkDetectionRow ∧
    (closeLogger (ds.foldl log_detection s0)).csv_lines =
        s0.csv_lines ++ ds.filterMap competitionEntryOf := by
  obtain ⟨h1, h2, h3, h4⟩ := log_detection_run_invariant ds s0 hb hc
  obtain ⟨k1, k2⟩ := closeLogger_spec (ds.foldl log_detection s0)
  refine ⟨fun hlen => ⟨?_, ?_⟩, ?_, ?_⟩
  · rw [← List.length_eq_zero]
    omega
  · omega
  · rw [k1, h1]
  · rw [k2, h2]

/-- Witness for C3: five identical detections starting from a fresh logger
leave an empty buffer, one flush write, and after close the workbook holds
exactly the five rows. -/
theorem C3_batched_flush_exactly_once_witness :
    ((List.replicate 5 sampleDetectionInput).foldl log_detection emptyLogger).data_buffer = [] ∧
    ((List.replicate 5 sampleDetectionInput).foldl log_detection emptyLogger).flush_count =
      emptyLogger.flush_count + 1 ∧
    (closeLogger
        ((List.replicate 5 sampleDetectionInput).foldl log_detection emptyLogger)).excel_rows =
      emptyLogger.excel_rows ++ (List.replicate 5 sampleDetectionInput).map mkDetectionRow := by
  have h := C3_batched_flush_exactly_once emptyLogger (List.replicate 5 sampleDetectionInput)
    rfl rfl
  exact ⟨(h.1 rfl).1, (h.1 rfl).2, h.2.1⟩

end ArmenianOCRUAV
